import Mathlib

/-!
Verification development for the run-slicer/hprof streaming HPROF decoder.

The decoder is embedded shallowly:

* the pull-based chunk buffer (src/buffer.ts) is modelled with explicit
  chunk lists (`ChunkBuf`, `ensure`);
* the record / sub-record decoder (src/index.ts) is modelled as a
  state-passing parser over a flat byte list, under the buffer contract
  of `ensure(n)` (at least `n` contiguous bytes or `EndOfStream`);
* the aggregating visitor (src/slurp.ts) is modelled as a fold over the
  event stream it consumes.

Visitor callbacks are modelled by their presence (the decoder branches
on whether a callback is registered) and are otherwise no-ops, matching
a visitor that registers callbacks and ignores them.  Floating point
reads only ever matter for their consumed width, so they are modelled
as raw big-endian reads.  Identifiers are values of `Int` because the
source reads them through the signed views `getBigInt64` / `getInt32`.
-/

deriving instance DecidableEq for Except

namespace Hprof

/-- Errors surfaced by the decoder.  `eof` is the buffer's
End-of-stream sentinel (`EOF` in src/buffer.ts), `bufferUnderflow` the
heap-dump accounting error, the `unsupported*` constructors the three
decode-time failures, `rangeError` the typed-array construction error a
negative `get` length raises in the host, and `outOfFuel` a fuel
artifact of the embedding that no adequately-fuelled run produces. -/
inductive Err where
  | eof
  | bufferUnderflow
  | unsupportedIdSize (n : Nat)
  | unsupportedType (t : Nat)
  | unsupportedSubTag (t : Nat)
  | rangeError
  | outOfFuel
deriving DecidableEq

/-- Byte-stream parser: maps the remaining input to an error or a value
together with the rest of the input. -/
def P (α : Type) : Type := List Nat → Except Err (α × List Nat)

/-- Parser returning a value without consuming input. -/
def P.pure (a : α) : P α := fun s => .ok (a, s)

/-- Parser sequencing: run the first parser, feed its rest to the
continuation. -/
def P.bind (m : P α) (f : α → P β) : P β := fun s =>
  match m s with
  | .error e => .error e
  | .ok (a, s1) => f a s1

instance : Monad P where
  pure := P.pure
  bind := P.bind

/-- Raise an error without consuming input. -/
def P.fail (e : Err) : P α := fun _ => .error e

theorem P.bind_eq (m : P α) (f : α → P β) : m >>= f = P.bind m f := rfl

theorem P.pure_eq (a : α) : (Pure.pure a : P α) = P.pure a := rfl

/-- Big-endian value of a byte list. -/
def beVal (l : List Nat) : Nat := l.foldl (fun acc b => acc * 256 + b) 0

/-- Two's-complement reinterpretation of a `w`-byte unsigned value, as
performed by the DataView signed getters. -/
def toSigned (w : Nat) (u : Nat) : Int :=
  if 2 ^ (8 * w - 1) ≤ u then (u : Int) - 2 ^ (8 * w) else (u : Int)

/-- Read `n` raw bytes (the buffer's `get`): `EndOfStream` when fewer
than `n` bytes remain, per the `ensure` contract of src/buffer.ts. -/
def getN : Nat → P (List Nat)
  | 0 => P.pure []
  | n + 1 => fun s =>
    match s with
    | [] => .error .eof
    | b :: rest =>
      match getN n rest with
      | .error e => .error e
      | .ok (l, r) => .ok (b :: l, r)

/-- Advance the cursor by `n` bytes (the buffer's `skip`). -/
def skip (n : Nat) : P Unit := fun s =>
  if s.length < n then .error .eof else .ok ((), s.drop n)

/-- Read one unsigned byte. -/
def getUint8 : P Nat := do let l ← getN 1; P.pure (beVal l)

/-- Read a big-endian u16. -/
def getUint16 : P Nat := do let l ← getN 2; P.pure (beVal l)

/-- Read a big-endian u32. -/
def getUint32 : P Nat := do let l ← getN 4; P.pure (beVal l)

/-- Read a big-endian u64. -/
def getUint64 : P Nat := do let l ← getN 8; P.pure (beVal l)

/-- Read a big-endian i32 (DataView.getInt32). -/
def getInt32 : P Int := do let u ← getUint32; P.pure (toSigned 4 u)

/-- Read a big-endian i64 (DataView.getBigInt64). -/
def getBigInt64 : P Int := do let u ← getUint64; P.pure (toSigned 8 u)

/-- Read a big-endian u64 (DataView.getBigUint64). -/
def getBigUint64 : P Nat := getUint64

/-- Read the four raw bytes of an f32; only the consumed width matters
to the decoder, so the raw big-endian value is returned. -/
def getFloat32 : P Nat := getUint32

/-- Read the eight raw bytes of an f64, as raw bits. -/
def getFloat64 : P Nat := getUint64

/-- Read bytes until the terminator byte is seen; the terminator is
consumed and excluded (the buffer's `take`). -/
def takeUntil (term : Nat) : P (List Nat) := fun s =>
  match s with
  | [] => .error .eof
  | b :: rest =>
    if b = term then .ok ([], rest)
    else
      match takeUntil term rest with
      | .error e => .error e
      | .ok (l, r) => .ok (b :: l, r)

/-- Setup-time identifier-size check of `idReader` (src/index.ts lines
588-597): the switch covers only the widths 8 and 4; every other size
throws `Unsupported identifier size`. -/
def idReaderOk (size : Nat) : Except Err Unit :=
  if size = 8 then .ok ()
  else if size = 4 then .ok ()
  else .error (.unsupportedIdSize size)

/-- One identifier read, as produced by the reader `idReader` returns:
`getBigInt64` for width 8, `BigInt(getInt32())` for width 4 — both
signed views. -/
def readId (size : Nat) : P Int :=
  if size = 8 then getBigInt64
  else if size = 4 then getInt32
  else P.fail (.unsupportedIdSize size)

/-- Bytes per value of an element type (`valueSize` in src/index.ts):
object kinds map to the identifier size, the eight primitive codes to
their fixed widths, everything else throws `Unsupported value type`. -/
def valueSize (t idSize : Nat) : Except Err Nat :=
  if t = 1 ∨ t = 2 then .ok idSize
  else if t = 4 ∨ t = 8 then .ok 1
  else if t = 5 ∨ t = 9 then .ok 2
  else if t = 6 ∨ t = 10 then .ok 4
  else if t = 7 ∨ t = 11 then .ok 8
  else .error (.unsupportedType t)

/-- Lift a pure `Except` computation into the parser. -/
def liftE (x : Except Err α) : P α := fun s =>
  match x with
  | .error e => .error e
  | .ok a => .ok (a, s)

/-- One value read dispatched on the element type (`valueReader` in
src/index.ts); values are discarded, only consumption is tracked. -/
def readValueRaw (t idSize : Nat) : P Unit :=
  if t = 4 ∨ t = 8 then do let _ ← getUint8; P.pure ()
  else if t = 10 then do let _ ← getUint32; P.pure ()
  else if t = 11 then do let _ ← getBigUint64; P.pure ()
  else if t = 6 then do let _ ← getFloat32; P.pure ()
  else if t = 7 then do let _ ← getFloat64; P.pure ()
  else if t = 5 ∨ t = 9 then do let _ ← getUint16; P.pure ()
  else if t = 1 ∨ t = 2 then do let _ ← readId idSize; P.pure ()
  else P.fail (.unsupportedType t)

/-- Which heap-dump sub-record callbacks a visitor registers. -/
structure HDHandlers where
  gcRootUnknown : Bool := false
  gcRootThreadObj : Bool := false
  gcRootJniGlobal : Bool := false
  gcRootJniLocal : Bool := false
  gcRootJavaFrame : Bool := false
  gcRootNativeStack : Bool := false
  gcRootStickyClass : Bool := false
  gcRootThreadBlock : Bool := false
  gcRootMonitorUsed : Bool := false
  gcClassDump : Bool := false
  gcInstanceDump : Bool := false
  gcObjArrayDump : Bool := false
  gcPrimArrayDump : Bool := false
deriving DecidableEq

/-- A heap-dump visitor registering no sub-record callbacks. -/
def hdNone : HDHandlers := {}

/-- A heap-dump visitor registering every sub-record callback. -/
def hdAll : HDHandlers where
  gcRootUnknown := true
  gcRootThreadObj := true
  gcRootJniGlobal := true
  gcRootJniLocal := true
  gcRootJavaFrame := true
  gcRootNativeStack := true
  gcRootStickyClass := true
  gcRootThreadBlock := true
  gcRootMonitorUsed := true
  gcClassDump := true
  gcInstanceDump := true
  gcObjArrayDump := true
  gcPrimArrayDump := true

/-- Static table `constSubRecordHandlers` (src/index.ts lines 623-633):
for the nine constant-width GC-root tags, the body size
`(idCount or 1) * idSize + (size or 0)`; `none` for every other tag. -/
def constSubRecordSize (tag idSize : Nat) : Option Nat :=
  if tag = 0xff then some (1 * idSize + 0)
  else if tag = 0x08 then some (1 * idSize + 8)
  else if tag = 0x01 then some (2 * idSize + 0)
  else if tag = 0x02 then some (1 * idSize + 8)
  else if tag = 0x03 then some (1 * idSize + 8)
  else if tag = 0x04 then some (1 * idSize + 4)
  else if tag = 0x05 then some (1 * idSize + 0)
  else if tag = 0x06 then some (1 * idSize + 4)
  else if tag = 0x07 then some (1 * idSize + 0)
  else none

/-- Whether the handler named in the static table for a constant-width
tag is registered on the visitor. -/
def constSubRecordHasHandler (hs : HDHandlers) (tag : Nat) : Bool :=
  if tag = 0xff then hs.gcRootUnknown
  else if tag = 0x08 then hs.gcRootThreadObj
  else if tag = 0x01 then hs.gcRootJniGlobal
  else if tag = 0x02 then hs.gcRootJniLocal
  else if tag = 0x03 then hs.gcRootJavaFrame
  else if tag = 0x04 then hs.gcRootNativeStack
  else if tag = 0x05 then hs.gcRootStickyClass
  else if tag = 0x06 then hs.gcRootThreadBlock
  else if tag = 0x07 then hs.gcRootMonitorUsed
  else false

/-- Constant-pool loop of `GC_CLASS_DUMP` when the visitor registered
`gcClassDump`: per item a u16 index, a u8 type, and one value read (or
a skip under `SKIP_VALUES`), accumulating `3 + size` bytes of length. -/
def constPoolLoopVisit (flags idSize : Nat) : Nat → Nat → P Nat
  | 0, acc => P.pure acc
  | n + 1, acc => do
    let _ ← getUint16
    let t ← getUint8
    let size ← liftE (valueSize t idSize)
    let _ ← if flags &&& 1 ≠ 0 then skip size else readValueRaw t idSize
    constPoolLoopVisit flags idSize n (acc + (3 + size))

/-- Constant-pool loop of `GC_CLASS_DUMP` when `gcClassDump` is absent:
skip the index, read the type, skip the value. -/
def constPoolLoopSkip (idSize : Nat) : Nat → Nat → P Nat
  | 0, acc => P.pure acc
  | n + 1, acc => do
    let _ ← skip 2
    let t ← getUint8
    let size ← liftE (valueSize t idSize)
    let _ ← skip size
    constPoolLoopSkip idSize n (acc + (3 + size))

/-- Static-field loop of `GC_CLASS_DUMP`, visitor path: per field a
name id, a u8 type and one value, accumulating `idSize + 1 + size`. -/
def staticFieldsLoopVisit (flags idSize : Nat) : Nat → Nat → P Nat
  | 0, acc => P.pure acc
  | n + 1, acc => do
    let _ ← readId idSize
    let t ← getUint8
    let size ← liftE (valueSize t idSize)
    let _ ← if flags &&& 1 ≠ 0 then skip size else readValueRaw t idSize
    staticFieldsLoopVisit flags idSize n (acc + (idSize + 1 + size))

/-- Static-field loop of `GC_CLASS_DUMP`, skip path. -/
def staticFieldsLoopSkip (idSize : Nat) : Nat → Nat → P Nat
  | 0, acc => P.pure acc
  | n + 1, acc => do
    let _ ← skip idSize
    let t ← getUint8
    let size ← liftE (valueSize t idSize)
    let _ ← skip size
    staticFieldsLoopSkip idSize n (acc + (idSize + 1 + size))

/-- Instance-field loop of `GC_CLASS_DUMP`, visitor path: a name id and
a u8 type per field, no value. -/
def instFieldsLoop (idSize : Nat) : Nat → P Unit
  | 0 => P.pure ()
  | n + 1 => do
    let _ ← readId idSize
    let _ ← getUint8
    instFieldsLoop idSize n

/-- Element loop of `GC_OBJ_ARRAY_DUMP`, reading one id per element. -/
def readIdsLoop (idSize : Nat) : Nat → P Unit
  | 0 => P.pure ()
  | n + 1 => do
    let _ ← readId idSize
    readIdsLoop idSize n

/-- Element loop of `GC_PRIM_ARRAY_DUMP`, reading one value per
element. -/
def readValuesLoop (t idSize : Nat) : Nat → P Unit
  | 0 => P.pure ()
  | n + 1 => do
    readValueRaw t idSize
    readValuesLoop t idSize n

/-- Slow-path body of `readSubRecord` (the big switch in src/index.ts
lines 649-874), already past the fast-path check, dispatching on the
tag byte; returns `1 + consumed body length` exactly as the source
does. -/
def readSubRecordSlow (flags : Nat) (hs : HDHandlers) (idSize tag : Nat) : P Nat :=
  if tag = 0xff then do
    let _ ← readId idSize
    P.pure (1 + idSize)
  else if tag = 0x08 then do
    let _ ← readId idSize
    let _ ← getUint32
    let _ ← getUint32
    P.pure (1 + idSize + 8)
  else if tag = 0x01 then do
    let _ ← readId idSize
    let _ ← readId idSize
    P.pure (1 + idSize * 2)
  else if tag = 0x02 then do
    let _ ← readId idSize
    let _ ← getUint32
    let _ ← getUint32
    P.pure (1 + idSize + 8)
  else if tag = 0x03 then do
    let _ ← readId idSize
    let _ ← getUint32
    let _ ← getUint32
    P.pure (1 + idSize + 8)
  else if tag = 0x04 then do
    let _ ← readId idSize
    let _ ← getUint32
    P.pure (1 + idSize + 4)
  else if tag = 0x05 then do
    let _ ← readId idSize
    P.pure (1 + idSize)
  else if tag = 0x06 then do
    let _ ← readId idSize
    let _ ← getUint32
    P.pure (1 + idSize + 4)
  else if tag = 0x07 then do
    let _ ← readId idSize
    P.pure (1 + idSize)
  else if tag = 0x20 then
    if hs.gcClassDump then do
      let _ ← readId idSize
      let _ ← getUint32
      let _ ← readId idSize
      let _ ← readId idSize
      let _ ← readId idSize
      let _ ← readId idSize
      let _ ← skip (idSize * 2)
      let _ ← getUint32
      let cps ← getUint16
      let len1 ← constPoolLoopVisit flags idSize cps (idSize * 7 + 8 + 2)
      let nsf ← getUint16
      let len2 ← staticFieldsLoopVisit flags idSize nsf (len1 + 2)
      let nif ← getUint16
      let _ ← instFieldsLoop idSize nif
      P.pure (1 + (len2 + 2 + (1 + idSize) * nif))
    else do
      let _ ← skip (idSize * 7 + 8)
      let cps ← getUint16
      let len1 ← constPoolLoopSkip idSize cps (idSize * 7 + 8 + 2)
      let nsf ← getUint16
      let len2 ← staticFieldsLoopSkip idSize nsf (len1 + 2)
      let nif ← getUint16
      let _ ← skip ((1 + idSize) * nif)
      P.pure (1 + (len2 + 2 + (1 + idSize) * nif))
  else if tag = 0x21 then
    if hs.gcInstanceDump then do
      let _ ← readId idSize
      let _ ← getUint32
      let _ ← readId idSize
      let numBytes ← getUint32
      let _ ← getN numBytes
      P.pure (1 + idSize * 2 + 8 + numBytes)
    else do
      let _ ← skip (idSize * 2 + 4)
      let numBytes ← getUint32
      let _ ← skip numBytes
      P.pure (1 + idSize * 2 + 8 + numBytes)
  else if tag = 0x22 then
    if hs.gcObjArrayDump then do
      let _ ← readId idSize
      let _ ← getUint32
      let numElems ← getUint32
      let _ ← readId idSize
      let _ ← if flags &&& 1 ≠ 0 then skip (numElems * idSize) else readIdsLoop idSize numElems
      P.pure (1 + idSize * (2 + numElems) + 8)
    else do
      let _ ← skip (idSize + 4)
      let numElems ← getUint32
      let _ ← skip (idSize * (1 + numElems))
      P.pure (1 + idSize * (2 + numElems) + 8)
  else if tag = 0x23 then
    if hs.gcPrimArrayDump then do
      let _ ← readId idSize
      let _ ← getUint32
      let numElems ← getUint32
      let elemType ← getUint8
      let size ← liftE (valueSize elemType idSize)
      let _ ← if flags &&& 1 ≠ 0 then skip (numElems * size) else readValuesLoop elemType idSize numElems
      P.pure (1 + idSize + 9 + numElems * size)
    else do
      let _ ← skip (idSize + 4)
      let numElems ← getUint32
      let elemType ← getUint8
      let size ← liftE (valueSize elemType idSize)
      let _ ← skip (numElems * size)
      P.pure (1 + idSize + 9 + numElems * size)
  else P.fail (.unsupportedSubTag tag)

/-- Dispatch after the tag byte: the fast path fires when the tag is in
the constant-width table and its handler is not registered, issuing one
`skip`; everything else goes through the switch. -/
def readSubRecordBody (flags : Nat) (hs : HDHandlers) (idSize tag : Nat) : P Nat :=
  match constSubRecordSize tag idSize, constSubRecordHasHandler hs tag with
  | some size, false => do
    let _ ← skip size
    P.pure (1 + size)
  | _, _ => readSubRecordSlow flags hs idSize tag

/-- One heap-dump sub-record (`readSubRecord` in src/index.ts lines
635-875): read the tag byte, then the body; the returned number is the
total consumed length including the tag byte. -/
def readSubRecord (flags : Nat) (hs : HDHandlers) (idSize : Nat) : P Nat := do
  let tag ← getUint8
  readSubRecordBody flags hs idSize tag

/-- Sub-record iteration of a `HEAP_DUMP`/`HEAP_DUMP_SEGMENT` body
(src/index.ts lines 1005-1012): repeat while `remaining > 0`,
subtracting each sub-record's returned length; afterwards a nonzero
`remaining` raises `Buffer underflow`.  The fuel argument is an
embedding artifact; every sub-record length is at least 1, so fuel
`remaining + 1` is always adequate. -/
def hdLoop (flags : Nat) (hs : HDHandlers) (idSize : Nat) : Nat → Int → P Unit
  | 0, _ => P.fail .outOfFuel
  | fuel + 1, remaining =>
    if remaining > 0 then do
      let len ← readSubRecord flags hs idSize
      hdLoop flags hs idSize fuel (remaining - len)
    else if remaining ≠ 0 then P.fail .bufferUnderflow
    else P.pure ()

/-- Which top-level callbacks a visitor registers.  `recordNull` models
`visitor.record` returning null (skip the whole record); `hdNull`
models `rv.heapDump` returning null. -/
structure VShape where
  recordNull : Bool := false
  utf8 : Bool := false
  loadClass : Bool := false
  unloadClass : Bool := false
  frame : Bool := false
  trace : Bool := false
  allocSites : Bool := false
  heapSummary : Bool := false
  startThread : Bool := false
  endThread : Bool := false
  heapDump : Bool := false
  cpuSamples : Bool := false
  controlSettings : Bool := false
  raw : Bool := false
  hdNull : Bool := false
  hd : HDHandlers := {}
deriving DecidableEq

/-- A visitor registering every callback (all of them no-ops). -/
def vsAll : VShape where
  utf8 := true
  loadClass := true
  unloadClass := true
  frame := true
  trace := true
  allocSites := true
  heapSummary := true
  startThread := true
  endThread := true
  heapDump := true
  cpuSamples := true
  controlSettings := true
  raw := true
  hd := hdAll

/-- The `recordHandlers[tag] in rv` test (src/index.ts lines 879-908):
whether the handler the static record table names for this tag is
registered; false for tags outside the table. -/
def recordHasHandler (vs : VShape) (tag : Nat) : Bool :=
  if tag = 0x01 then vs.utf8
  else if tag = 0x02 then vs.loadClass
  else if tag = 0x03 then vs.unloadClass
  else if tag = 0x04 then vs.frame
  else if tag = 0x05 then vs.trace
  else if tag = 0x06 then vs.allocSites
  else if tag = 0x07 then vs.heapSummary
  else if tag = 0x0a then vs.startThread
  else if tag = 0x0b then vs.endThread
  else if tag = 0x0c then vs.heapDump
  else if tag = 0x0d then vs.cpuSamples
  else if tag = 0x0e then vs.controlSettings
  else if tag = 0x1c then vs.heapDump
  else false

/-- Per-site loop of `ALLOC_SITES`: a u8 and six u32 counters per
site. -/
def sitesLoop : Nat → P Unit
  | 0 => P.pure ()
  | n + 1 => do
    let _ ← getUint8
    let _ ← getUint32
    let _ ← getUint32
    let _ ← getUint32
    let _ ← getUint32
    let _ ← getUint32
    let _ ← getUint32
    sitesLoop n

/-- Per-trace loop of `CPU_SAMPLES`: two u32 per trace. -/
def cpuTracesLoop : Nat → P Unit
  | 0 => P.pure ()
  | n + 1 => do
    let _ ← getUint32
    let _ ← getUint32
    cpuTracesLoop n

/-- Raw escape of the record decoder: forward the body to `raw` when
registered, else skip it. -/
def readRecordRawOrSkip (vs : VShape) (length : Nat) : P Unit :=
  if vs.raw then do
    let _ ← getN length
    P.pure ()
  else skip length

/-- One top-level record (`readRecord` in src/index.ts lines 895-1040):
read the `(tag, tsDelta, length)` frame; a null record visitor skips
the body; a registered typed handler takes the typed path; otherwise
the body goes to `raw` or is skipped.  The `UTF8` typed path reads the
id then `length - idSize` bytes, which in the host raises a range error
when `length < idSize`. -/
def readRecord (flags : Nat) (vs : VShape) (idSize : Nat) : P Unit := do
  let tag ← getUint8
  let _ ← getUint32
  let length ← getUint32
  if vs.recordNull then skip length
  else if recordHasHandler vs tag then
    if tag = 0x01 then do
      let _ ← readId idSize
      if length < idSize then P.fail .rangeError
      else do
        let _ ← getN (length - idSize)
        P.pure ()
    else if tag = 0x02 then do
      let _ ← getUint32
      let _ ← readId idSize
      let _ ← getUint32
      let _ ← readId idSize
      P.pure ()
    else if tag = 0x03 then do
      let _ ← getUint32
      P.pure ()
    else if tag = 0x04 then do
      let _ ← readId idSize
      let _ ← readId idSize
      let _ ← readId idSize
      let _ ← readId idSize
      let _ ← getUint32
      let _ ← getInt32
      P.pure ()
    else if tag = 0x05 then do
      let _ ← getUint32
      let _ ← getUint32
      let numFrames ← getUint32
      readIdsLoop idSize numFrames
    else if tag = 0x06 then do
      let _ ← getUint16
      let _ ← getUint32
      let _ ← getUint32
      let _ ← getUint32
      let _ ← getBigUint64
      let _ ← getBigUint64
      let numSites ← getUint32
      sitesLoop numSites
    else if tag = 0x07 then do
      let _ ← getUint32
      let _ ← getUint32
      let _ ← getBigUint64
      let _ ← getBigUint64
      P.pure ()
    else if tag = 0x0a then do
      let _ ← getUint32
      let _ ← readId idSize
      let _ ← getUint32
      let _ ← readId idSize
      let _ ← readId idSize
      let _ ← readId idSize
      P.pure ()
    else if tag = 0x0b then do
      let _ ← getUint32
      P.pure ()
    else if tag = 0x0c ∨ tag = 0x1c then
      if vs.hdNull then skip length
      else hdLoop flags vs.hd idSize (length + 1) (length : Int)
    else if tag = 0x0d then do
      let _ ← getUint32
      let numTraces ← getUint32
      cpuTracesLoop numTraces
    else if tag = 0x0e then do
      let _ ← getUint32
      let _ ← getUint16
      P.pure ()
    else P.pure ()
  else readRecordRawOrSkip vs length

/-- The unbounded top-level record loop (`while (true)` in
src/index.ts lines 1058-1060); it can only end in an error (`eof` being
the normal terminator).  Fuel `input length + 1` is always adequate
because every record consumes at least its tag byte. -/
def recordLoop (flags : Nat) (vs : VShape) (idSize : Nat) : Nat → P Empty
  | 0 => P.fail .outOfFuel
  | fuel + 1 => do
    readRecord flags vs idSize
    recordLoop flags vs idSize fuel

/-- Header parse of `read` (src/index.ts lines 1049-1051): the
null-terminated banner, the u32 identifier size, the u64 timestamp;
returns the identifier size. -/
def parseHeader : P Nat := do
  let _ ← takeUntil 0
  let idSize ← getUint32
  let _ ← getUint64
  P.pure idSize

/-- The driver `read` (src/index.ts lines 1046-1069), with an explicit
count of `reader.cancel()` invocations in the second component.  The
header is parsed outside the try block, then `idReader` is constructed
(failing fast on an unsupported identifier size), then the record loop
runs; only the `EOF` sentinel is swallowed, after which `visitor.end`
(a no-op here) and `cancel` run.  A propagating error skips `cancel`. -/
def readRun (flags : Nat) (vs : VShape) (bytes : List Nat) : Except Err Unit × Nat :=
  match parseHeader bytes with
  | .error e => (.error e, 0)
  | .ok (idSize, rest) =>
    match idReaderOk idSize with
    | .error e => (.error e, 0)
    | .ok _ =>
      match recordLoop flags vs idSize (rest.length + 1) rest with
      | .ok (e, _) => e.elim
      | .error .eof => (.ok (), 1)
      | .error e => (.error e, 0)

/-! The chunked stream buffer of src/buffer.ts, modelled with explicit
chunk lists: `window`/`offset` mirror `view`/`offset`, and `source` is
the sequence of chunks the `ReadableStreamDefaultReader` will yield
before reporting `done`. -/

/-- State of the stream buffer. -/
structure ChunkBuf where
  window : List Nat
  offset : Nat
  source : List (List Nat)
deriving DecidableEq

/-- The 20 MiB minimum refill (`MIN_READ` in src/buffer.ts). -/
def MIN_READ : Nat := 1024 * 1024 * 20

/-- The pull loop of `ensure` (src/buffer.ts lines 48-56): keep pulling
chunks while `toRead > chunksLength`; a `done` source raises `EOF`. -/
def refill (toRead : Nat) : List (List Nat) → Nat → List Nat →
    Except Err (List Nat × List (List Nat))
  | src, chunksLen, acc =>
    if toRead > chunksLen then
      match src with
      | [] => .error .eof
      | c :: rest => refill toRead rest (chunksLen + c.length) (acc ++ c)
    else .ok (acc, src)

/-- The buffer's `ensure` (src/buffer.ts lines 35-68): return at once
when the window already holds `length` bytes past the offset; otherwise
splice the unread tail with pulled chunks into a fresh window, pulling
at least `max length MIN_READ` bytes. -/
def ensure (b : ChunkBuf) (length : Nat) : Except Err ChunkBuf :=
  if ¬ (b.offset + length > b.window.length) then .ok b
  else
    let tail := b.window.drop b.offset
    let toRead := max length MIN_READ
    match refill toRead b.source tail.length tail with
    | .error e => .error e
    | .ok (combined, src) => .ok ⟨combined, 0, src⟩

/-- Bytes actually available to the buffer from the current position:
the unread window tail plus every chunk the source still holds. -/
def availableBytes (b : ChunkBuf) : Nat :=
  (b.window.length - b.offset) + (b.source.map List.length).sum

/-! The aggregating visitor of src/slurp.ts.  JS `Map`s are modelled as
association lists where `aupdate` replaces an existing key in place and
appends a new one, matching `Map.set` insertion-order semantics. -/

/-- Lookup in an association list (`Map.get`). -/
def alookup {κ α : Type} [DecidableEq κ] : List (κ × α) → κ → Option α
  | [], _ => none
  | (k1, v1) :: rest, k => if k1 = k then some v1 else alookup rest k

/-- Insert-or-replace in an association list (`Map.set`). -/
def aupdate {κ α : Type} [DecidableEq κ] : List (κ × α) → κ → α → List (κ × α)
  | [], k, v => [(k, v)]
  | (k1, v1) :: rest, k, v =>
    if k1 = k then (k, v) :: rest else (k1, v1) :: aupdate rest k v

/-- Per-class info recorded from `gcClassDump`: declared instance size
and super-class id. -/
structure ClassInfo where
  instSize : Nat
  superClsId : Int
deriving DecidableEq

/-- Array proto entry: count, summed element count, and the maximum
single-array element count (`maxSize`). -/
structure ArrProto where
  count : Nat
  elemCount : Nat
  maxSize : Nat
deriving DecidableEq

/-- Transient aggregator state (the closures of `slurp`). -/
structure SlurpState where
  strings : List (Int × String) := []
  classNames : List (Int × String) := []
  classes : List (Int × ClassInfo) := []
  instances : List (Int × Nat) := []
  objArrays : List (Int × ArrProto) := []
  primArrays : List (Nat × ArrProto) := []
deriving DecidableEq

/-- Heap-dump sub-record events delivered to the aggregator (only the
arguments it consumes). -/
inductive HEvent where
  | classDump (clsObjId : Int) (superObjId : Int) (instSize : Nat)
  | instanceDump (clsObjId : Int)
  | objArrayDump (arrClsId : Int) (numElems : Nat)
  | primArrayDump (elemType : Nat) (numElems : Nat)
deriving DecidableEq

/-- Top-level events delivered to the aggregator.  `heapDumpStart`
marks the `heapDump` callback, which clears the strings table. -/
inductive SEvent where
  | utf8 (id : Int) (value : String)
  | loadClass (objId : Int) (nameId : Int)
  | heapDumpStart
  | hd (e : HEvent)
deriving DecidableEq

/-- Heap-dump event processing (src/slurp.ts lines 90-157).  Note that
`gcObjArrayDump` increments the count and element total but never
touches `maxSize`, unlike `gcPrimArrayDump`. -/
def processHD (st : SlurpState) : HEvent → SlurpState
  | .classDump cls sup isz =>
    { st with classes := aupdate st.classes cls ⟨isz, sup⟩ }
  | .instanceDump cls =>
    let count := (alookup st.instances cls).getD 0
    { st with instances := aupdate st.instances cls (count + 1) }
  | .objArrayDump cls n =>
    let e := (alookup st.objArrays cls).getD ⟨0, 0, 0⟩
    { st with objArrays := aupdate st.objArrays cls ⟨e.count + 1, e.elemCount + n, e.maxSize⟩ }
  | .primArrayDump t n =>
    let e := (alookup st.primArrays t).getD ⟨0, 0, 0⟩
    { st with primArrays := aupdate st.primArrays t ⟨e.count + 1, e.elemCount + n, max e.maxSize n⟩ }

/-- Top-level event processing (src/slurp.ts lines 74-89).  `loadClass`
looks the name id up in the strings table and drops the event when the
result is falsy — absent, or the empty string. -/
def processEvent (st : SlurpState) : SEvent → SlurpState
  | .utf8 id v => { st with strings := aupdate st.strings id v }
  | .loadClass objId nameId =>
    match alookup st.strings nameId with
    | none => st
    | some v => if v = "" then st else { st with classNames := aupdate st.classNames objId v }
  | .heapDumpStart => { st with strings := [] }
  | .hd e => processHD st e

/-- Run the aggregator over an event sequence from the empty state. -/
def runSlurp (events : List SEvent) : SlurpState :=
  events.foldl processEvent {}

/-- The alignment adjustment used throughout `slurp.end`
(src/slurp.ts lines 167, 193, 228): `x += x % a`, i.e. the spec's
`align(x, a) = x + (x mod a)`. -/
def alignAdd (x a : Nat) : Nat := x + x % a

/-- The estimated object header (src/slurp.ts lines 166-167):
`idSize + 4` padded by `alignAdd`. -/
def objectHeader (idSize : Nat) : Nat := alignAdd (idSize + 4) idSize

/-- The super-chain walk of `slurp.end` (src/slurp.ts lines 182-191):
accumulate instance sizes up the super chain while the parent id is
nonzero and present in the class table.  `none` models the walk not
finishing within the fuel (a cyclic chain diverges in the source). -/
def walkSuper (classes : List (Int × ClassInfo)) : Nat → Int → Nat → Option Nat
  | 0, _, _ => none
  | fuel + 1, superId, size =>
    if superId = 0 then some size
    else
      match alookup classes superId with
      | none => some size
      | some c => walkSuper classes fuel c.superClsId (size + c.instSize)

/-- Sum of instance sizes over the super-chain ancestors present in the
class table, written the way the spec words it (a sum over the chain),
for comparison with the accumulating walk of the source. -/
def specChainSum (classes : List (Int × ClassInfo)) : Nat → Int → Option Nat
  | 0, _ => none
  | fuel + 1, superId =>
    if superId = 0 then some 0
    else
      match alookup classes superId with
      | none => some 0
      | some c => (specChainSum classes fuel c.superClsId).map (· + c.instSize)

/-- A materialized aggregator entry.  `etype` is 0 for INSTANCE, 1 for
OBJ_ARRAY, 2 for PRIM_ARRAY; sizes are `Int` because -1 is the
"class dump not seen" sentinel. -/
structure Entry where
  etype : Nat
  id : Int
  name : Option String
  count : Nat
  totalSize : Int
  largestSize : Int
deriving DecidableEq

/-- The per-instance-class entry computation of `slurp.end`
(src/slurp.ts lines 170-199): sizes default to -1; when the class dump
was seen, walk the super chain, pad by the alignment adjustment, and
multiply by the count. -/
def instanceEntry (idSize : Nat) (classes : List (Int × ClassInfo))
    (classNames : List (Int × String)) (fuel : Nat) (p : Int × Nat) : Option Entry :=
  match alookup classes p.1 with
  | none => some ⟨0, p.1, alookup classNames p.1, p.2, -1, -1⟩
  | some cls =>
    match walkSuper classes fuel cls.superClsId (objectHeader idSize + cls.instSize) with
    | none => none
    | some size0 =>
      let size := alignAdd size0 idSize
      some ⟨0, p.1, alookup classNames p.1, p.2, (size : Int) * p.2, (size : Int)⟩

/-- The estimated array header (src/slurp.ts line 203). -/
def arrayHeader (idSize : Nat) : Nat := idSize + 8

/-- JNI-style descriptor letter of a primitive element type
(src/slurp.ts lines 49-58); unknown codes print as `undefined`, as the
template literal would. -/
def primDesc (t : Nat) : String :=
  if t = 4 then "Z"
  else if t = 5 then "C"
  else if t = 6 then "F"
  else if t = 7 then "D"
  else if t = 8 then "B"
  else if t = 9 then "S"
  else if t = 10 then "I"
  else if t = 11 then "J"
  else "undefined"

/-- The per-object-array-class entry of `slurp.end` (src/slurp.ts lines
206-216): reference slots only, `largestSize` computed from the stored
`maxSize`. -/
def objArrayEntry (idSize : Nat) (classNames : List (Int × String))
    (p : Int × ArrProto) : Entry :=
  ⟨1, p.1, alookup classNames p.1, p.2.count,
    ((arrayHeader idSize * p.2.count + idSize * p.2.elemCount : Nat) : Int),
    ((arrayHeader idSize + idSize * p.2.maxSize : Nat) : Int)⟩

/-- The per-primitive-array-type entry of `slurp.end` (src/slurp.ts
lines 220-236), with the 4-byte per-array padding estimate and the
aligned largest size; fails when `valueSize` rejects the stored type
code. -/
def primArrayEntry (idSize : Nat) (p : Nat × ArrProto) : Option Entry :=
  match valueSize p.1 idSize with
  | .error _ => none
  | .ok v =>
    some ⟨2, (p.1 : Int), some ("[" ++ primDesc p.1), p.2.count,
      ((arrayHeader idSize * p.2.count + v * p.2.elemCount + p.2.count * 4 : Nat) : Int),
      ((alignAdd (arrayHeader idSize + v * p.2.maxSize) idSize : Nat) : Int)⟩

/-- The entry materialization of `slurp.end` (src/slurp.ts lines
161-238): instance entries in instance-table order, then object-array
entries, then primitive-array entries.  `none` models a diverging super
chain or an end-time `valueSize` throw. -/
def slurpEnd (idSize : Nat) (st : SlurpState) : Option (List Entry) := do
  let fuel := st.classes.length + 1
  let instEntries ← st.instances.mapM (instanceEntry idSize st.classes st.classNames fuel)
  let objEntries := st.objArrays.map (objArrayEntry idSize st.classNames)
  let primEntries ← st.primArrays.mapM (primArrayEntry idSize)
  pure (instEntries ++ objEntries ++ primEntries)

/-! Helper lemmas: symbolic evaluation of the parser.  Each primitive
gets a lemma describing how a bind on it runs, so that `simp` can
unfold any composite parser into a tree of length conditions. -/

@[simp]
theorem pure_apply (a : α) (s : List Nat) : P.pure a s = .ok (a, s) := rfl

@[simp]
theorem fail_apply (e : Err) (s : List Nat) : (P.fail e : P α) s = .error e := rfl

theorem bind_apply (m : P α) (g : α → P β) (s : List Nat) :
    (m >>= g) s =
      match m s with
      | .error e => .error e
      | .ok (a, s1) => g a s1 := rfl

theorem bind_eq_ext {m1 m2 : P α} (hm : ∀ s, m1 s = m2 s) {g1 g2 : α → P β}
    (hg : ∀ a s, g1 a s = g2 a s) (s : List Nat) : (m1 >>= g1) s = (m2 >>= g2) s := by
  rw [bind_apply, bind_apply, hm]
  cases m2 s with
  | error e => rfl
  | ok p => exact hg p.1 p.2

@[simp]
theorem bind_pure (a : α) (g : α → P β) (s : List Nat) : (P.pure a >>= g) s = g a s := rfl

theorem bind_assoc_apply (m : P α) (f : α → P β) (g : β → P γ) (s : List Nat) :
    ((m >>= f) >>= g) s = (m >>= fun a => f a >>= g) s := by
  show (P.bind (P.bind m f) g) s = (P.bind m fun a => P.bind (f a) g) s
  unfold P.bind
  cases m s with
  | error e => rfl
  | ok p =>
    obtain ⟨a, s1⟩ := p
    rfl

theorem getN_eq (n : Nat) (s : List Nat) :
    getN n s = if s.length < n then .error .eof else .ok (s.take n, s.drop n) := by
  induction n generalizing s with
  | zero => simp [getN]
  | succ n ih =>
    cases s with
    | nil => simp [getN]
    | cons b rest =>
      by_cases h : rest.length < n <;>
        simp [getN, ih, h, Nat.succ_lt_succ_iff]

@[simp]
theorem bind_getN (n : Nat) (g : List Nat → P β) (s : List Nat) :
    (getN n >>= g) s =
      if s.length < n then .error .eof else g (s.take n) (s.drop n) := by
  rw [bind_apply, getN_eq]
  by_cases h : s.length < n <;> simp [h]

@[simp]
theorem bind_skip (n : Nat) (g : Unit → P β) (s : List Nat) :
    (skip n >>= g) s =
      if s.length < n then .error .eof else g () (s.drop n) := by
  rw [bind_apply]
  unfold skip
  by_cases h : s.length < n <;> simp [h]

@[simp]
theorem skip_apply (n : Nat) (s : List Nat) :
    skip n s = if s.length < n then .error .eof else .ok ((), s.drop n) := rfl

@[simp]
theorem bind_getUint8 (g : Nat → P β) (s : List Nat) :
    (getUint8 >>= g) s =
      if s.length < 1 then .error .eof else g (beVal (s.take 1)) (s.drop 1) := by
  exact (bind_assoc_apply (getN 1) (fun l => P.pure (beVal l)) g s).trans (by simp)

@[simp]
theorem bind_getUint16 (g : Nat → P β) (s : List Nat) :
    (getUint16 >>= g) s =
      if s.length < 2 then .error .eof else g (beVal (s.take 2)) (s.drop 2) := by
  exact (bind_assoc_apply (getN 2) (fun l => P.pure (beVal l)) g s).trans (by simp)

@[simp]
theorem bind_getUint32 (g : Nat → P β) (s : List Nat) :
    (getUint32 >>= g) s =
      if s.length < 4 then .error .eof else g (beVal (s.take 4)) (s.drop 4) := by
  exact (bind_assoc_apply (getN 4) (fun l => P.pure (beVal l)) g s).trans (by simp)

@[simp]
theorem bind_getUint64 (g : Nat → P β) (s : List Nat) :
    (getUint64 >>= g) s =
      if s.length < 8 then .error .eof else g (beVal (s.take 8)) (s.drop 8) := by
  exact (bind_assoc_apply (getN 8) (fun l => P.pure (beVal l)) g s).trans (by simp)

@[simp]
theorem bind_getBigUint64 (g : Nat → P β) (s : List Nat) :
    (getBigUint64 >>= g) s =
      if s.length < 8 then .error .eof else g (beVal (s.take 8)) (s.drop 8) :=
  bind_getUint64 g s

@[simp]
theorem bind_getInt32 (g : Int → P β) (s : List Nat) :
    (getInt32 >>= g) s =
      if s.length < 4 then .error .eof
      else g (toSigned 4 (beVal (s.take 4))) (s.drop 4) := by
  exact (bind_assoc_apply getUint32 (fun u => P.pure (toSigned 4 u)) g s).trans (by simp)

@[simp]
theorem bind_getBigInt64 (g : Int → P β) (s : List Nat) :
    (getBigInt64 >>= g) s =
      if s.length < 8 then .error .eof
      else g (toSigned 8 (beVal (s.take 8))) (s.drop 8) := by
  exact (bind_assoc_apply getUint64 (fun u => P.pure (toSigned 8 u)) g s).trans (by simp)

@[simp]
theorem bind_getFloat32 (g : Nat → P β) (s : List Nat) :
    (getFloat32 >>= g) s =
      if s.length < 4 then .error .eof else g (beVal (s.take 4)) (s.drop 4) :=
  bind_getUint32 g s

@[simp]
theorem bind_getFloat64 (g : Nat → P β) (s : List Nat) :
    (getFloat64 >>= g) s =
      if s.length < 8 then .error .eof else g (beVal (s.take 8)) (s.drop 8) :=
  bind_getUint64 g s

@[simp]
theorem bind_liftE_ok (a : α) (g : α → P β) (s : List Nat) :
    (liftE (.ok a) >>= g) s = g a s := rfl

@[simp]
theorem bind_liftE_error (e : Err) (g : α → P β) (s : List Nat) :
    (liftE (.error e) >>= g) s = .error e := rfl

theorem readId4_eq : readId 4 = getInt32 := rfl

theorem readId8_eq : readId 8 = getBigInt64 := rfl

@[simp]
theorem bind_readId4 (g : Int → P β) (s : List Nat) :
    (readId 4 >>= g) s =
      if s.length < 4 then .error .eof
      else g (toSigned 4 (beVal (s.take 4))) (s.drop 4) := by
  rw [readId4_eq]; exact bind_getInt32 g s

@[simp]
theorem bind_readId8 (g : Int → P β) (s : List Nat) :
    (readId 8 >>= g) s =
      if s.length < 8 then .error .eof
      else g (toSigned 8 (beVal (s.take 8))) (s.drop 8) := by
  rw [readId8_eq]; exact bind_getBigInt64 g s

/-! Equivalence lemmas for the visitor-present and visitor-absent
decode paths: every path consumes the same bytes. -/

theorem readValueRaw_eq_skip (idSz t k : Nat) (hid : idSz = 4 ∨ idSz = 8)
    (hv : valueSize t idSz = .ok k) : readValueRaw t idSz = skip k := by
  unfold valueSize at hv
  split_ifs at hv with h1 h2 h3 h4 h5
  · injection hv with hk
    subst hk
    rcases h1 with h | h <;> subst h <;> rcases hid with h2 | h2 <;> subst h2 <;>
      funext s <;> simp [readValueRaw]
  · injection hv with hk
    subst hk
    rcases h2 with h | h <;> subst h <;> funext s <;> simp [readValueRaw]
  · injection hv with hk
    subst hk
    rcases h3 with h | h <;> subst h <;> funext s <;> simp [readValueRaw]
  · injection hv with hk
    subst hk
    rcases h4 with h | h <;> subst h <;> funext s <;> simp [readValueRaw]
  · injection hv with hk
    subst hk
    rcases h5 with h | h <;> subst h <;> funext s <;> simp [readValueRaw]

theorem instFieldsLoop_eq (idSz : Nat) (hid : idSz = 4 ∨ idSz = 8) :
    ∀ n, instFieldsLoop idSz n = skip ((idSz + 1) * n) := by
  intro n
  induction n with
  | zero => funext s; simp [instFieldsLoop]
  | succ n ih =>
    funext s
    rcases hid with h | h <;> subst h <;>
      simp [instFieldsLoop, ih, List.drop_drop] <;>
      split_ifs <;>
      first
        | rfl
        | (exfalso; omega)
        | (congr 1 <;> first
            | rfl
            | omega
            | (congr 1 <;> first
                | rfl
                | omega
                | (congr 1 <;> first | rfl | omega)))

theorem readIdsLoop_eq (idSz : Nat) (hid : idSz = 4 ∨ idSz = 8) :
    ∀ n, readIdsLoop idSz n = skip (n * idSz) := by
  intro n
  induction n with
  | zero => funext s; simp [readIdsLoop]
  | succ n ih =>
    funext s
    rcases hid with h | h <;> subst h <;>
      simp [readIdsLoop, ih, List.drop_drop] <;>
      split_ifs <;>
      first
        | rfl
        | (exfalso; omega)
        | (congr 1 <;> first
            | rfl
            | omega
            | (congr 1 <;> first
                | rfl
                | omega
                | (congr 1 <;> first | rfl | omega)))

theorem readValuesLoop_eq (idSz t k : Nat) (hid : idSz = 4 ∨ idSz = 8)
    (hv : valueSize t idSz = .ok k) :
    ∀ n, readValuesLoop t idSz n = skip (n * k) := by
  intro n
  induction n with
  | zero => funext s; simp [readValuesLoop]
  | succ n ih =>
    funext s
    simp [readValuesLoop, readValueRaw_eq_skip idSz t k hid hv, ih, List.drop_drop,
      Nat.succ_mul]
    split_ifs <;>
      first
        | rfl
        | (exfalso; omega)
        | (congr 1 <;> first
            | rfl
            | omega
            | (congr 1 <;> first
                | rfl
                | omega
                | (congr 1 <;> first | rfl | omega)))

theorem discard_getUint16 (g : P β) :
    (getUint16 >>= fun _ => g) = (skip 2 >>= fun _ => g) := by
  funext s
  simp

theorem discard_getUint32 (g : P β) :
    (getUint32 >>= fun _ => g) = (skip 4 >>= fun _ => g) := by
  funext s
  simp

theorem discard_readId (idSz : Nat) (hid : idSz = 4 ∨ idSz = 8) (g : P β) :
    (readId idSz >>= fun _ => g) = (skip idSz >>= fun _ => g) := by
  funext s
  rcases hid with h | h <;> subst h <;> simp

theorem skip_add (a b : Nat) (g : Unit → P β) :
    (skip a >>= fun _ => skip b >>= g) = (skip (a + b) >>= g) := by
  funext s
  simp [List.drop_drop]
  split_ifs <;>
    first
      | rfl
      | (exfalso; omega)
      | (congr 1 <;> first
          | rfl
          | omega
          | (congr 1 <;> first
              | rfl
              | omega
              | (congr 1 <;> first | rfl | omega)))

theorem valueStage_eq (flags idSz t : Nat) (hid : idSz = 4 ∨ idSz = 8) (g : Nat → P β) :
    (liftE (valueSize t idSz) >>= fun size =>
      if flags &&& 1 ≠ 0 then (skip size >>= fun _ => g size)
      else (readValueRaw t idSz >>= fun _ => g size))
    = (liftE (valueSize t idSz) >>= fun size => skip size >>= fun _ => g size) := by
  cases hv : valueSize t idSz with
  | error e => funext s; simp [hv]
  | ok k =>
    funext s
    by_cases hf : flags &&& 1 ≠ 0 <;>
      simp [hv, hf, readValueRaw_eq_skip idSz t k hid hv]

theorem constPoolLoop_eq (flags idSz : Nat) (hid : idSz = 4 ∨ idSz = 8) :
    ∀ n acc, constPoolLoopVisit flags idSz n acc = constPoolLoopSkip idSz n acc := by
  intro n
  induction n with
  | zero => intro acc; rfl
  | succ n ih =>
    intro acc
    simp only [constPoolLoopVisit, constPoolLoopSkip, ih]
    rw [discard_getUint16]
    refine congrArg (fun m => skip 2 >>= fun _ => m) ?_
    refine congrArg (fun m => getUint8 >>= m) (funext fun t => ?_)
    exact valueStage_eq flags idSz t hid (fun size => constPoolLoopSkip idSz n (acc + (3 + size)))

theorem staticFieldsLoop_eq (flags idSz : Nat) (hid : idSz = 4 ∨ idSz = 8) :
    ∀ n acc, staticFieldsLoopVisit flags idSz n acc = staticFieldsLoopSkip idSz n acc := by
  intro n
  induction n with
  | zero => intro acc; rfl
  | succ n ih =>
    intro acc
    simp only [staticFieldsLoopVisit, staticFieldsLoopSkip, ih]
    rw [discard_readId idSz hid]
    refine congrArg (fun m => skip idSz >>= fun _ => m) ?_
    refine congrArg (fun m => getUint8 >>= m) (funext fun t => ?_)
    exact valueStage_eq flags idSz t hid
      (fun size => staticFieldsLoopSkip idSz n (acc + (idSz + 1 + size)))


theorem primStage_eq (flags idSz t n : Nat) (hid : idSz = 4 ∨ idSz = 8) (g : Nat → P Nat) :
    (liftE (valueSize t idSz) >>= fun size =>
      if flags % 2 = 1 then (skip (n * size) >>= fun _ => g size)
      else (readValuesLoop t idSz n >>= fun _ => g size))
    = (liftE (valueSize t idSz) >>= fun size => skip (n * size) >>= fun _ => g size) := by
  cases hv : valueSize t idSz with
  | error e => funext s; simp [hv]
  | ok k =>
    funext s
    by_cases hf : flags % 2 = 1 <;>
      simp [hv, hf, readValuesLoop_eq idSz t k hid hv]

theorem objElemsStage_eq (flags idSz n : Nat) (hid : idSz = 4 ∨ idSz = 8) (g : P Nat) :
    (if flags % 2 = 1 then (skip (n * idSz) >>= fun _ => g)
      else (readIdsLoop idSz n >>= fun _ => g))
    = (skip (n * idSz) >>= fun _ => g) := by
  by_cases hf : flags % 2 = 1 <;> simp [hf, readIdsLoop_eq idSz hid]

theorem bodyEq255 (flags idSz : Nat) (hid : idSz = 4 ∨ idSz = 8) (hs : HDHandlers) :
    readSubRecordBody flags hs idSz 255 = readSubRecordBody flags hdNone idSz 255 := by
  unfold readSubRecordBody
  simp only [constSubRecordSize, constSubRecordHasHandler, hdNone]
  norm_num
  cases hh : hs.gcRootUnknown
  · simp [hh]
  · rcases hid with hI | hI <;> subst hI <;>
      funext s <;>
      simp [hh, readSubRecordSlow, List.drop_drop] <;>
      split_ifs <;> first | rfl | omega

theorem bodyEq08 (flags idSz : Nat) (hid : idSz = 4 ∨ idSz = 8) (hs : HDHandlers) :
    readSubRecordBody flags hs idSz 8 = readSubRecordBody flags hdNone idSz 8 := by
  unfold readSubRecordBody
  simp only [constSubRecordSize, constSubRecordHasHandler, hdNone]
  norm_num
  cases hh : hs.gcRootThreadObj
  · simp [hh]
  · rcases hid with hI | hI <;> subst hI <;>
      funext s <;>
      simp [hh, readSubRecordSlow, List.drop_drop] <;>
      split_ifs <;> first | rfl | omega

theorem bodyEq01 (flags idSz : Nat) (hid : idSz = 4 ∨ idSz = 8) (hs : HDHandlers) :
    readSubRecordBody flags hs idSz 1 = readSubRecordBody flags hdNone idSz 1 := by
  unfold readSubRecordBody
  simp only [constSubRecordSize, constSubRecordHasHandler, hdNone]
  norm_num
  cases hh : hs.gcRootJniGlobal
  · simp [hh]
  · rcases hid with hI | hI <;> subst hI <;>
      funext s <;>
      simp [hh, readSubRecordSlow, List.drop_drop] <;>
      split_ifs <;> first | rfl | omega

theorem bodyEq02 (flags idSz : Nat) (hid : idSz = 4 ∨ idSz = 8) (hs : HDHandlers) :
    readSubRecordBody flags hs idSz 2 = readSubRecordBody flags hdNone idSz 2 := by
  unfold readSubRecordBody
  simp only [constSubRecordSize, constSubRecordHasHandler, hdNone]
  norm_num
  cases hh : hs.gcRootJniLocal
  · simp [hh]
  · rcases hid with hI | hI <;> subst hI <;>
      funext s <;>
      simp [hh, readSubRecordSlow, List.drop_drop] <;>
      split_ifs <;> first | rfl | omega

theorem bodyEq03 (flags idSz : Nat) (hid : idSz = 4 ∨ idSz = 8) (hs : HDHandlers) :
    readSubRecordBody flags hs idSz 3 = readSubRecordBody flags hdNone idSz 3 := by
  unfold readSubRecordBody
  simp only [constSubRecordSize, constSubRecordHasHandler, hdNone]
  norm_num
  cases hh : hs.gcRootJavaFrame
  · simp [hh]
  · rcases hid with hI | hI <;> subst hI <;>
      funext s <;>
      simp [hh, readSubRecordSlow, List.drop_drop] <;>
      split_ifs <;> first | rfl | omega

theorem bodyEq04 (flags idSz : Nat) (hid : idSz = 4 ∨ idSz = 8) (hs : HDHandlers) :
    readSubRecordBody flags hs idSz 4 = readSubRecordBody flags hdNone idSz 4 := by
  unfold readSubRecordBody
  simp only [constSubRecordSize, constSubRecordHasHandler, hdNone]
  norm_num
  cases hh : hs.gcRootNativeStack
  · simp [hh]
  · rcases hid with hI | hI <;> subst hI <;>
      funext s <;>
      simp [hh, readSubRecordSlow, List.drop_drop] <;>
      split_ifs <;> first | rfl | omega

theorem bodyEq05 (flags idSz : Nat) (hid : idSz = 4 ∨ idSz = 8) (hs : HDHandlers) :
    readSubRecordBody flags hs idSz 5 = readSubRecordBody flags hdNone idSz 5 := by
  unfold readSubRecordBody
  simp only [constSubRecordSize, constSubRecordHasHandler, hdNone]
  norm_num
  cases hh : hs.gcRootStickyClass
  · simp [hh]
  · rcases hid with hI | hI <;> subst hI <;>
      funext s <;>
      simp [hh, readSubRecordSlow, List.drop_drop] <;>
      split_ifs <;> first | rfl | omega

theorem bodyEq06 (flags idSz : Nat) (hid : idSz = 4 ∨ idSz = 8) (hs : HDHandlers) :
    readSubRecordBody flags hs idSz 6 = readSubRecordBody flags hdNone idSz 6 := by
  unfold readSubRecordBody
  simp only [constSubRecordSize, constSubRecordHasHandler, hdNone]
  norm_num
  cases hh : hs.gcRootThreadBlock
  · simp [hh]
  · rcases hid with hI | hI <;> subst hI <;>
      funext s <;>
      simp [hh, readSubRecordSlow, List.drop_drop] <;>
      split_ifs <;> first | rfl | omega

theorem bodyEq07 (flags idSz : Nat) (hid : idSz = 4 ∨ idSz = 8) (hs : HDHandlers) :
    readSubRecordBody flags hs idSz 7 = readSubRecordBody flags hdNone idSz 7 := by
  unfold readSubRecordBody
  simp only [constSubRecordSize, constSubRecordHasHandler, hdNone]
  norm_num
  cases hh : hs.gcRootMonitorUsed
  · simp [hh]
  · rcases hid with hI | hI <;> subst hI <;>
      funext s <;>
      simp [hh, readSubRecordSlow, List.drop_drop] <;>
      split_ifs <;> first | rfl | omega

theorem bodyEq32 (flags idSz : Nat) (hid : idSz = 4 ∨ idSz = 8) (hs : HDHandlers) :
    readSubRecordBody flags hs idSz 32 = readSubRecordBody flags hdNone idSz 32 := by
  have hid2 := hid
  unfold readSubRecordBody
  simp only [constSubRecordSize, constSubRecordHasHandler, hdNone]
  norm_num
  cases hh : hs.gcClassDump
  · simp [hh, readSubRecordSlow]
  · simp only [readSubRecordSlow, hh]
    norm_num
    rcases hid with hI | hI <;> subst hI <;>
      simp only [discard_readId _ hid2, discard_getUint32,
        constPoolLoop_eq flags _ hid2, staticFieldsLoop_eq flags _ hid2,
        instFieldsLoop_eq _ hid2, skip_add] <;>
      try norm_num

theorem bodyEq33 (flags idSz : Nat) (hid : idSz = 4 ∨ idSz = 8) (hs : HDHandlers) :
    readSubRecordBody flags hs idSz 33 = readSubRecordBody flags hdNone idSz 33 := by
  unfold readSubRecordBody
  simp only [constSubRecordSize, constSubRecordHasHandler, hdNone]
  norm_num
  cases hh : hs.gcInstanceDump
  · simp [hh, readSubRecordSlow]
  · rcases hid with hI | hI <;> subst hI <;>
      (simp only [readSubRecordSlow, hh]
       norm_num
       funext s
       simp [List.drop_drop, getN_eq]
       split_ifs <;> first | rfl | omega | (simp [List.drop_drop]; omega))

theorem bodyEq34 (flags idSz : Nat) (hid : idSz = 4 ∨ idSz = 8) (hs : HDHandlers) :
    readSubRecordBody flags hs idSz 34 = readSubRecordBody flags hdNone idSz 34 := by
  have hid2 := hid
  unfold readSubRecordBody
  simp only [constSubRecordSize, constSubRecordHasHandler, hdNone]
  norm_num
  cases hh : hs.gcObjArrayDump
  · simp [hh, readSubRecordSlow]
  · simp only [readSubRecordSlow, hh]
    norm_num
    rcases hid with hI | hI <;> subst hI <;>
      (simp only [objElemsStage_eq flags _ _ hid2]
       funext s
       simp [List.drop_drop, Nat.mul_add, Nat.mul_comm, Nat.mul_one]) <;>
      split_ifs <;>
      first
        | rfl
        | (exfalso; omega)
        | (congr 1 <;> first
            | rfl
            | omega
            | (congr 1 <;> first
                | rfl
                | omega
                | (congr 1 <;> first | rfl | omega)))

theorem bodyEq35 (flags idSz : Nat) (hid : idSz = 4 ∨ idSz = 8) (hs : HDHandlers) :
    readSubRecordBody flags hs idSz 35 = readSubRecordBody flags hdNone idSz 35 := by
  have hid2 := hid
  unfold readSubRecordBody
  simp only [constSubRecordSize, constSubRecordHasHandler, hdNone]
  norm_num
  cases hh : hs.gcPrimArrayDump
  · simp [hh, readSubRecordSlow]
  · simp only [readSubRecordSlow, hh]
    norm_num
    rcases hid with hI | hI <;> subst hI <;>
      (simp only [primStage_eq flags _ _ _ hid2]
       funext s
       simp [List.drop_drop]) <;>
      split_ifs <;>
      first
        | rfl
        | (exfalso; omega)
        | (congr 1 <;> first
            | rfl
            | omega
            | (congr 1 <;> first
                | rfl
                | omega
                | (congr 1 <;> first | rfl | omega)))

theorem readSubRecordBody_eq (flags idSz : Nat) (hid : idSz = 4 ∨ idSz = 8)
    (hs : HDHandlers) (tag : Nat) :
    readSubRecordBody flags hs idSz tag = readSubRecordBody flags hdNone idSz tag := by
  by_cases h255 : tag = 255
  · subst h255; exact bodyEq255 flags idSz hid hs
  by_cases h08 : tag = 8
  · subst h08; exact bodyEq08 flags idSz hid hs
  by_cases h01 : tag = 1
  · subst h01; exact bodyEq01 flags idSz hid hs
  by_cases h02 : tag = 2
  · subst h02; exact bodyEq02 flags idSz hid hs
  by_cases h03 : tag = 3
  · subst h03; exact bodyEq03 flags idSz hid hs
  by_cases h04 : tag = 4
  · subst h04; exact bodyEq04 flags idSz hid hs
  by_cases h05 : tag = 5
  · subst h05; exact bodyEq05 flags idSz hid hs
  by_cases h06 : tag = 6
  · subst h06; exact bodyEq06 flags idSz hid hs
  by_cases h07 : tag = 7
  · subst h07; exact bodyEq07 flags idSz hid hs
  by_cases h32 : tag = 32
  · subst h32; exact bodyEq32 flags idSz hid hs
  by_cases h33 : tag = 33
  · subst h33; exact bodyEq33 flags idSz hid hs
  by_cases h34 : tag = 34
  · subst h34; exact bodyEq34 flags idSz hid hs
  by_cases h35 : tag = 35
  · subst h35; exact bodyEq35 flags idSz hid hs
  simp [readSubRecordBody, constSubRecordSize, constSubRecordHasHandler, readSubRecordSlow,
    h255, h08, h01, h02, h03, h04, h05, h06, h07, h32, h33, h34, h35]


theorem readSubRecord_eq (flags idSz : Nat) (hid : idSz = 4 ∨ idSz = 8) (hs : HDHandlers) :
    ∀ s, readSubRecord flags hs idSz s = readSubRecord flags hdNone idSz s := by
  intro s
  unfold readSubRecord
  exact bind_eq_ext (fun _ => rfl)
    (fun tag s1 => by rw [readSubRecordBody_eq flags idSz hid hs tag]) s

theorem hdLoop_eq (flags idSz : Nat) (hid : idSz = 4 ∨ idSz = 8) (hs : HDHandlers) :
    ∀ fuel (remaining : Int) s,
      hdLoop flags hs idSz fuel remaining s = hdLoop flags hdNone idSz fuel remaining s := by
  intro fuel
  induction fuel with
  | zero => intro r s; rfl
  | succ n ih =>
    intro r s
    unfold hdLoop
    by_cases hr : r > 0
    · simp only [hr, if_pos]
      exact bind_eq_ext (readSubRecord_eq flags idSz hid hs) (fun len s1 => ih (r - len) s1) s
    · simp [hr]


theorem bind_pure_right (m : P α) (s : List Nat) : (m >>= P.pure) s = m s := by
  rw [bind_apply]
  cases m s with
  | error e => rfl
  | ok p => rfl

theorem readId4_run (s : List Nat) :
    readId 4 s =
      if s.length < 4 then .error .eof
      else .ok (toSigned 4 (beVal (s.take 4)), s.drop 4) := by
  rw [← bind_pure_right (readId 4) s, bind_readId4]
  split_ifs <;> rfl

theorem readId8_run (s : List Nat) :
    readId 8 s =
      if s.length < 8 then .error .eof
      else .ok (toSigned 8 (beVal (s.take 8)), s.drop 8) := by
  rw [← bind_pure_right (readId 8) s, bind_readId8]
  split_ifs <;> rfl

theorem beVal_aux (l : List Nat) : ∀ acc : Nat, (∀ b ∈ l, b < 256) →
    l.foldl (fun a b => a * 256 + b) acc < (acc + 1) * 256 ^ l.length := by
  induction l with
  | nil => intro acc _; simp
  | cons b rest ih =>
    intro acc h
    have hb : b < 256 := h b (by simp)
    have hrest : ∀ x ∈ rest, x < 256 := fun x hx => h x (by simp [hx])
    have h1 := ih (acc * 256 + b) hrest
    have h2 : (acc * 256 + b + 1) * 256 ^ rest.length ≤ (acc + 1) * 256 ^ (b :: rest).length := by
      have hle : acc * 256 + b + 1 ≤ (acc + 1) * 256 := by omega
      calc (acc * 256 + b + 1) * 256 ^ rest.length
          ≤ (acc + 1) * 256 * 256 ^ rest.length := Nat.mul_le_mul_right _ hle
        _ = (acc + 1) * 256 ^ (b :: rest).length := by
            simp [List.length_cons, pow_succ]
            ring
    calc (b :: rest).foldl (fun a x => a * 256 + x) acc
        = rest.foldl (fun a x => a * 256 + x) (acc * 256 + b) := by simp
      _ < (acc * 256 + b + 1) * 256 ^ rest.length := h1
      _ ≤ (acc + 1) * 256 ^ (b :: rest).length := h2

theorem beVal_lt (l : List Nat) (h : ∀ b ∈ l, b < 256) : beVal l < 256 ^ l.length := by
  have := beVal_aux l 0 h
  simpa [beVal] using this

theorem parseHeader_gen (n : Nat) (tail : List Nat) :
    parseHeader ([0, 0, 0, 0, n, 0, 0, 0, 0, 0, 0, 0, 0] ++ tail) = .ok (n, tail) := by
  have h1 : parseHeader ([0, 0, 0, 0, n, 0, 0, 0, 0, 0, 0, 0, 0] ++ tail)
      = .ok (beVal [0, 0, 0, n], tail) := rfl
  rw [h1]
  simp [beVal]

theorem hdNone_noHandler (tag : Nat) : constSubRecordHasHandler hdNone tag = false := by
  unfold constSubRecordHasHandler hdNone
  split_ifs <;> rfl


end Hprof


namespace Hprof

/-- C3: the buffer contract says `ensure(n)` must succeed whenever `n`
bytes are available from the current position; the implementation
instead raises `EndOfStream` because the refill loop demands
`max n MIN_READ` accumulated bytes before stopping.  Concretely, a
buffer with an empty window whose source holds one 1-byte chunk has one
byte available, yet `ensure 1` raises `EndOfStream`. -/
theorem C3_ensure_eof_despite_available :
    ensure ⟨[], 0, [[42]]⟩ 1 = .error .eof ∧ availableBytes ⟨[], 0, [[42]]⟩ = 1 := by
  constructor
  · rfl
  · rfl

/-- C5 counterexample: the claim says identifier width 2 is accepted;
the reader setup rejects it with `Unsupported identifier size 2` — and
a full run with a header declaring idSize 2 fails before any record,
with the source never cancelled. -/
theorem C5_counterexample :
    readId 2 [0, 1] = .error (.unsupportedIdSize 2)
    ∧ readRun 0 vsAll [0, 0, 0, 0, 2, 0, 0, 0, 0, 0, 0, 0, 0]
        = (.error (.unsupportedIdSize 2), 0) := by
  constructor
  · rfl
  · rfl

/-- C5 (amended): the identifier reader accepts exactly the widths 4
and 8; every other declared width fails fast with
`UnsupportedIdSize(n)` at reader construction, before any record is
decoded (the whole run rejects with that error and zero records). -/
theorem C5_supported_id_sizes :
    idReaderOk 4 = .ok () ∧ idReaderOk 8 = .ok ()
    ∧ (∀ n, n ≠ 4 → n ≠ 8 → idReaderOk n = .error (.unsupportedIdSize n))
    ∧ (∀ flags vs n tail, n ≠ 4 → n ≠ 8 →
        readRun flags vs ([0, 0, 0, 0, n, 0, 0, 0, 0, 0, 0, 0, 0] ++ tail)
          = (.error (.unsupportedIdSize n), 0)) := by
  refine ⟨rfl, rfl, ?_, ?_⟩
  · intro n h4 h8
    unfold idReaderOk
    rw [if_neg h8, if_neg h4]
  · intro flags vs n tail h4 h8
    unfold readRun
    rw [parseHeader_gen n tail]
    simp only [idReaderOk, if_neg h8, if_neg h4]

/-- C5 witness: the amended theorem applied at width 2. -/
theorem C5_supported_id_sizes_witness :
    idReaderOk 2 = .error (.unsupportedIdSize 2)
    ∧ readRun 0 vsAll ([0, 0, 0, 0, 2, 0, 0, 0, 0, 0, 0, 0, 0] ++ [])
        = (.error (.unsupportedIdSize 2), 0) :=
  ⟨C5_supported_id_sizes.2.2.1 2 (by decide) (by decide),
   C5_supported_id_sizes.2.2.2 0 vsAll 2 [] (by decide) (by decide)⟩

/-- C6 counterexample: the claim says identifiers are unsigned, so
0xFFFFFFFF at idSize 4 should be 4294967295; the reader uses the signed
`getInt32` view and yields -1, a negative value. -/
theorem C6_counterexample :
    readId 4 [255, 255, 255, 255] = .ok (-1, []) ∧ ¬ (0 : Int) ≤ -1 := by
  constructor
  · rfl
  · decide

/-- C6 (amended): every identifier is the big-endian bytes interpreted
as a signed two's-complement integer of its width (`getInt32` /
`getBigInt64`): the value lies in [-2^(8·w-1), 2^(8·w-1)) and is
congruent modulo 2^(8·w) to the unsigned big-endian interpretation;
identifiers with the high bit set are reported negative. -/
theorem C6_signed_id_range :
    (∀ s v rest, (∀ b ∈ s, b < 256) → readId 4 s = .ok (v, rest) →
      -(2 ^ 31) ≤ v ∧ v < 2 ^ 31 ∧ v % (2 ^ 32) = (beVal (s.take 4) : Int))
    ∧ (∀ s v rest, (∀ b ∈ s, b < 256) → readId 8 s = .ok (v, rest) →
      -(2 ^ 63) ≤ v ∧ v < 2 ^ 63 ∧ v % (2 ^ 64) = (beVal (s.take 8) : Int)) := by
  constructor
  · intro s v rest hb hok
    rw [readId4_run] at hok
    split_ifs at hok with hlen
    simp only [Except.ok.injEq, Prod.mk.injEq] at hok
    obtain ⟨hv, _⟩ := hok
    have hu : beVal (s.take 4) < 256 ^ (s.take 4).length :=
      beVal_lt _ (fun b hbm => hb b (List.mem_of_mem_take hbm))
    have hlen4 : (s.take 4).length ≤ 4 := by simp
    have hu2 : beVal (s.take 4) < 2 ^ 32 := by
      calc beVal (s.take 4) < 256 ^ (s.take 4).length := hu
        _ ≤ 256 ^ 4 := Nat.pow_le_pow_right (by norm_num) hlen4
        _ = 2 ^ 32 := by norm_num
    subst hv
    unfold toSigned
    have e1 : 2 ^ (8 * 4 - 1) = 2 ^ 31 := by norm_num
    rw [e1]
    split_ifs with hc <;>
      refine ⟨?_, ?_, ?_⟩ <;> omega
  · intro s v rest hb hok
    rw [readId8_run] at hok
    split_ifs at hok with hlen
    simp only [Except.ok.injEq, Prod.mk.injEq] at hok
    obtain ⟨hv, _⟩ := hok
    have hu : beVal (s.take 8) < 256 ^ (s.take 8).length :=
      beVal_lt _ (fun b hbm => hb b (List.mem_of_mem_take hbm))
    have hlen8 : (s.take 8).length ≤ 8 := by simp
    have hu2 : beVal (s.take 8) < 2 ^ 64 := by
      calc beVal (s.take 8) < 256 ^ (s.take 8).length := hu
        _ ≤ 256 ^ 8 := Nat.pow_le_pow_right (by norm_num) hlen8
        _ = 2 ^ 64 := by norm_num
    subst hv
    unfold toSigned
    have e1 : 2 ^ (8 * 8 - 1) = 2 ^ 63 := by norm_num
    rw [e1]
    split_ifs with hc <;>
      refine ⟨?_, ?_, ?_⟩ <;> omega

/-- C6 witness: the amended theorem applied to the four bytes
0x80 0x00 0x00 0x01 at idSize 4, whose signed value is -2147483647. -/
theorem C6_signed_id_range_witness :
    -(2 ^ 31) ≤ (-2147483647 : Int) ∧ (-2147483647 : Int) < 2 ^ 31
    ∧ (-2147483647 : Int) % (2 ^ 32) = (beVal ([128, 0, 0, 1].take 4) : Int) :=
  C6_signed_id_range.1 [128, 0, 0, 1] (-2147483647) [] (by decide) (by decide)

/-- C8: at the failing input (idSize 8, two object-array dumps for
class id 100 with 3 and 1 elements), the aggregator's entry has
largestSize 16 = arrayHeader — the maximum element count is never
recorded for object arrays, whereas the claim (and spec) require
largestSize = arrayHeader + idSize·maxElementCount = 40.  The
totalSize formula does hold (16·2 + 8·4 = 64). -/
theorem C8_objarray_largest_at_failing_input :
    slurpEnd 8 (runSlurp [.hd (.objArrayDump 100 3), .hd (.objArrayDump 100 1)])
      = some [⟨1, 100, none, 2, 64, 16⟩]
    ∧ ((16 : Int) ≠ (arrayHeader 8 : Int) + 8 * 3) := by
  constructor
  · rfl
  · decide

/-- C10: a `loadClass` event whose name id resolves to the empty string
is dropped exactly like an unresolved one: the aggregator state is left
unchanged (JS falsiness of `""` in the `if (!value) return` guard). -/
theorem C10_empty_name_dropped (st : SlurpState) (objId nameId : Int)
    (h : alookup st.strings nameId = some "") :
    processEvent st (.loadClass objId nameId) = st := by
  simp [processEvent, h]

/-- C10 witness: a strings table mapping id 5 to the empty string
leaves the state unchanged under `loadClass 7 5`. -/
theorem C10_empty_name_dropped_witness :
    processEvent ⟨[(5, "")], [], [], [], [], []⟩ (.loadClass 7 5)
      = ⟨[(5, "")], [], [], [], [], []⟩ :=
  C10_empty_name_dropped ⟨[(5, "")], [], [], [], [], []⟩ 7 5 (by decide)

end Hprof


namespace Hprof

/-- C1 counterexample: a `HEAP_DUMP_SEGMENT` of declared length 10
holding a single 9-byte `GC_ROOT_STICKY_CLASS` (idSize 8) at the end of
the stream does not raise `BufferUnderflow` as the claim requires: the
sub-record loop keeps reading past the record, hits `EndOfStream`, and
the top-level driver swallows it — the run terminates normally. -/
theorem C1_counterexample :
    readRun 0 vsAll ([0, 0, 0, 0, 8, 0, 0, 0, 0, 0, 0, 0, 0]
        ++ [0x1c, 0, 0, 0, 0, 0, 0, 0, 10] ++ [5, 1, 2, 3, 4, 5, 6, 7, 8])
      = (.ok (), 1)
    ∧ (readRun 0 vsAll ([0, 0, 0, 0, 8, 0, 0, 0, 0, 0, 0, 0, 0]
        ++ [0x1c, 0, 0, 0, 0, 0, 0, 0, 10] ++ [5, 1, 2, 3, 4, 5, 6, 7, 8])).1
        ≠ .error .bufferUnderflow := by
  constructor
  · rfl
  · decide

/-- C1 (amended): the heap-dump loop tracks the remaining length; when
the running consumption overshoots (remaining goes negative) it raises
`BufferUnderflow`; a record whose sub-records consume exactly the
declared length drains to remaining 0 without error; but when the
sub-records undershoot, the loop does not stop at the record boundary —
it reads further sub-records from the following bytes, so with declared
length 10 and a single 9-byte `GC_ROOT_STICKY_CLASS` at stream end the
loop raises `EndOfStream` (swallowed by the driver), not
`BufferUnderflow`. -/
theorem C1_heap_dump_accounting :
    (∀ flags hs idSz fuel (r : Int) s, r < 0 →
      hdLoop flags hs idSz (fuel + 1) r s = .error .bufferUnderflow)
    ∧ hdLoop 0 hdAll 8 10 9 [5, 1, 2, 3, 4, 5, 6, 7, 8] = .ok ((), [])
    ∧ readRun 0 vsAll ([0, 0, 0, 0, 8, 0, 0, 0, 0, 0, 0, 0, 0]
        ++ [0x1c, 0, 0, 0, 0, 0, 0, 0, 9] ++ [5, 1, 2, 3, 4, 5, 6, 7, 8])
      = (.ok (), 1)
    ∧ hdLoop 0 hdAll 8 11 10 [5, 1, 2, 3, 4, 5, 6, 7, 8] = .error .eof
    ∧ hdLoop 0 hdAll 8 6 5 [5, 1, 2, 3, 4, 5, 6, 7, 8] = .error .bufferUnderflow := by
  refine ⟨?_, rfl, rfl, rfl, rfl⟩
  intro flags hs idSz fuel r s hr
  unfold hdLoop
  have h1 : ¬ r > 0 := by omega
  have h2 : r ≠ 0 := by omega
  simp [h1, h2]

/-- C1 witness: the overshoot branch of the amended theorem at
remaining -4. -/
theorem C1_heap_dump_accounting_witness :
    hdLoop 0 hdAll 8 1 (-4) [] = .error .bufferUnderflow :=
  C1_heap_dump_accounting.1 0 hdAll 8 0 (-4) [] (by decide)

/-- C2 counterexample: after a valid header, a stream holding exactly
one byte starts a record frame (the tag byte reads fine) and then hits
`EndOfStream` mid-frame, yet the run terminates normally — the claim
requires this `EndOfStream` to propagate as an error. -/
theorem C2_counterexample :
    readRun 0 vsAll ([0, 0, 0, 0, 8, 0, 0, 0, 0, 0, 0, 0, 0] ++ [1]) = (.ok (), 1)
    ∧ readRecord 0 vsAll 8 [1] = .error .eof
    ∧ getUint8 [1] = .ok (1, []) := by
  refine ⟨rfl, rfl, rfl⟩

/-- C2 (amended): the top-level driver swallows `EndOfStream` raised
anywhere inside the record loop — whether or not a partial record has
been started — and terminates normally (cancelling the source once);
`EndOfStream` raised while the header is being parsed propagates to the
caller as an error. -/
theorem C2_eof_termination :
    (∀ flags vs bytes idSize rest, parseHeader bytes = .ok (idSize, rest) →
      idReaderOk idSize = .ok () →
      recordLoop flags vs idSize (rest.length + 1) rest = .error .eof →
      readRun flags vs bytes = (.ok (), 1))
    ∧ readRun 0 vsAll [] = (.error .eof, 0) := by
  constructor
  · intro flags vs bytes idSize rest h1 h2 h3
    unfold readRun
    simp only [h1, h2, h3]
  · rfl

/-- C2 witness: the amended theorem applied to a valid idSize-8 header
followed by a single byte — a partial record frame. -/
theorem C2_eof_termination_witness :
    readRun 0 vsAll ([0, 0, 0, 0, 8, 0, 0, 0, 0, 0, 0, 0, 0] ++ [1]) = (.ok (), 1) :=
  C2_eof_termination.1 0 vsAll ([0, 0, 0, 0, 8, 0, 0, 0, 0, 0, 0, 0, 0] ++ [1]) 8 [1]
    (parseHeader_gen 8 [1]) (by decide) (by decide)

/-- C9 counterexample: a parsing failure (unsupported heap sub-record
tag 0x99) propagates out of `read` without the source reader ever being
cancelled — cancel count 0, not exactly once as the claim requires. -/
theorem C9_counterexample :
    readRun 0 vsAll ([0, 0, 0, 0, 8, 0, 0, 0, 0, 0, 0, 0, 0]
        ++ [0x0c, 0, 0, 0, 0, 0, 0, 0, 5] ++ [0x99, 0, 0, 0, 0])
      = (.error (.unsupportedSubTag 0x99), 0) := by
  rfl

/-- C9 (amended): the source reader is cancelled exactly once if and
only if `read` terminates normally (including the swallowed
`EndOfStream`); on every propagating error — during the header, at
reader construction, or inside the record loop — it is cancelled zero
times. -/
theorem C9_cancel_iff_normal (flags : Nat) (vs : VShape) (bytes : List Nat) :
    ((readRun flags vs bytes).2 = 1 ↔ (readRun flags vs bytes).1 = .ok ())
    ∧ ((readRun flags vs bytes).2 = 0 ∨ (readRun flags vs bytes).2 = 1) := by
  unfold readRun
  rcases hph : parseHeader bytes with e | ⟨idSize, rest⟩ <;> simp only [hph]
  · simp
  · rcases hid : idReaderOk idSize with e | u <;> simp only [hid]
    · simp
    · rcases hrl : recordLoop flags vs idSize (rest.length + 1) rest with e | q
      · cases e <;> simp
      · exact q.1.elim

/-- C9 witness: the amended cancel-count characterization applied to
the empty stream. -/
theorem C9_cancel_iff_normal_witness :
    (((readRun 0 vsAll []).2 = 1 ↔ (readRun 0 vsAll []).1 = .ok ())
      ∧ ((readRun 0 vsAll []).2 = 0 ∨ (readRun 0 vsAll []).2 = 1)) :=
  C9_cancel_iff_normal 0 vsAll []

end Hprof


namespace Hprof

theorem walkSuper_spec (classes : List (Int × ClassInfo)) :
    ∀ fuel (superId : Int) (acc : Nat),
      walkSuper classes fuel superId acc = (specChainSum classes fuel superId).map (acc + ·) := by
  intro fuel
  induction fuel with
  | zero => intro sid acc; rfl
  | succ n ih =>
    intro sid acc
    unfold walkSuper specChainSum
    by_cases h : sid = 0
    · simp [h]
    · simp only [h, if_neg, ite_false]
      cases alookup classes sid with
      | none => simp
      | some c =>
        simp only [ih]
        cases specChainSum classes n c.superClsId <;> simp <;> omega

/-- C7: instance sizing of the aggregator.  In general, when the class
dump of C was seen and its super chain resolves to an ancestor sum s,
the entry for C carries largestSize = align(objectHeader +
instanceSize(C) + s, idSize) and totalSize = largestSize · count, with
align(x, a) = x + x mod a and objectHeader = align(idSize + 4, idSize);
when C's class dump was never seen both sizes are -1.  Concretely, with
idSize 8, class A (id 10, instSize 8, super 0), class B (id 20,
instSize 16, super A) and two instance dumps of B, the entry is
count 2, totalSize 80, largestSize 40. -/
theorem C7_instance_sizing :
    (∀ (idSz : Nat) (classes : List (Int × ClassInfo)) (classNames : List (Int × String))
       (fuel : Nat) (id : Int) (count : Nat) (cls : ClassInfo) (s : Nat),
      alookup classes id = some cls →
      specChainSum classes fuel cls.superClsId = some s →
      instanceEntry idSz classes classNames fuel (id, count)
        = some ⟨0, id, alookup classNames id, count,
            ((alignAdd (objectHeader idSz + cls.instSize + s) idSz : Nat) : Int) * count,
            ((alignAdd (objectHeader idSz + cls.instSize + s) idSz : Nat) : Int)⟩)
    ∧ (∀ (idSz : Nat) (classes : List (Int × ClassInfo)) (classNames : List (Int × String))
       (fuel : Nat) (id : Int) (count : Nat),
      alookup classes id = none →
      instanceEntry idSz classes classNames fuel (id, count)
        = some ⟨0, id, alookup classNames id, count, -1, -1⟩)
    ∧ slurpEnd 8 (runSlurp [.hd (.classDump 10 0 8), .hd (.classDump 20 10 16),
        .hd (.instanceDump 20), .hd (.instanceDump 20)])
      = some [⟨0, 20, none, 2, 80, 40⟩] := by
  refine ⟨?_, ?_, ?_⟩
  · intro idSz classes classNames fuel id count cls s h1 h2
    unfold instanceEntry
    simp only [h1, walkSuper_spec, h2, Option.map_some]
    rfl
  · intro idSz classes classNames fuel id count h1
    simp [instanceEntry, h1]
  · rfl

/-- C7 witness: the general instance-size formula applied to the
concrete two-class table of the example, and the concrete end-to-end
run. -/
theorem C7_instance_sizing_witness :
    instanceEntry 8 [(10, ⟨8, 0⟩), (20, ⟨16, 10⟩)] [] 3 (20, 2)
      = some ⟨0, 20, none, 2,
          ((alignAdd (objectHeader 8 + 16 + 8) 8 : Nat) : Int) * 2,
          ((alignAdd (objectHeader 8 + 16 + 8) 8 : Nat) : Int)⟩ :=
  C7_instance_sizing.1 8 [(10, ⟨8, 0⟩), (20, ⟨16, 10⟩)] [] 3 20 2 ⟨16, 10⟩ 8
    (by decide) (by decide)

/-- C4: the decoder's byte consumption is independent of which heap-dump
sub-record callbacks are registered: a sub-record decode (and the whole
heap-dump loop) produces the same returned length, the same remaining
input and the same error with any handler set as with none; and for a
constant-width GC-root tag with table size s and enough input, any
decode consumes exactly 1 + s bytes — the fast-path skip length equals
the field-by-field consumption. -/
theorem C4_visitor_independence (flags idSz : Nat) (hid : idSz = 4 ∨ idSz = 8)
    (hs : HDHandlers) :
    (∀ s, readSubRecord flags hs idSz s = readSubRecord flags hdNone idSz s)
    ∧ (∀ fuel (remaining : Int) s,
        hdLoop flags hs idSz fuel remaining s = hdLoop flags hdNone idSz fuel remaining s)
    ∧ (∀ tag size rest, constSubRecordSize tag idSz = some size → size ≤ rest.length →
        readSubRecord flags hs idSz (tag :: rest) = .ok (1 + size, rest.drop size)) := by
  refine ⟨readSubRecord_eq flags idSz hid hs, hdLoop_eq flags idSz hid hs, ?_⟩
  intro tag size rest hsize hlen
  rw [readSubRecord_eq flags idSz hid hs (tag :: rest)]
  have h8 : getUint8 (tag :: rest) = .ok (tag, rest) := by
    have h0 : getUint8 (tag :: rest) = .ok (beVal [tag], rest) := rfl
    rw [h0]
    simp [beVal]
  show (getUint8 >>= readSubRecordBody flags hdNone idSz) (tag :: rest) = _
  rw [bind_apply, h8]
  show readSubRecordBody flags hdNone idSz tag rest = _
  unfold readSubRecordBody
  rw [hsize, hdNone_noHandler]
  show (skip size >>= fun _ => P.pure (1 + size)) rest = _
  rw [bind_skip]
  simp [Nat.not_lt.mpr hlen]

/-- C4 witness: idSize 8, all handlers registered, one
`GC_ROOT_STICKY_CLASS` sub-record followed by two extra bytes. -/
theorem C4_visitor_independence_witness :
    readSubRecord 0 hdAll 8 [5, 1, 2, 3, 4, 5, 6, 7, 8, 9, 9]
      = readSubRecord 0 hdNone 8 [5, 1, 2, 3, 4, 5, 6, 7, 8, 9, 9]
    ∧ readSubRecord 0 hdAll 8 (5 :: [1, 2, 3, 4, 5, 6, 7, 8, 9, 9])
      = .ok (1 + 8, [1, 2, 3, 4, 5, 6, 7, 8, 9, 9].drop 8) :=
  ⟨(C4_visitor_independence 0 8 (Or.inr rfl) hdAll).1 _,
   (C4_visitor_independence 0 8 (Or.inr rfl) hdAll).2.2 5 8 [1, 2, 3, 4, 5, 6, 7, 8, 9, 9]
     (by decide) (by decide)⟩

end Hprof
